import Mathlib

/-!
Shallow embedding of the ustp-nav routing server (src/app.py).

The embedding models the routing core: building/entrance frames, the
location resolver get_location_point, node snapping, weighted shortest
path search, and the geometry stitcher inside the navigate handler.
External library primitives that are not part of this repository are
modelled at their interface: the metric projection used by to_crs is an
environment-supplied coordinate transform applied pointwise, and the
shapely projected point-to-geometry distance is an environment-supplied
rational-valued function.  Machine floats are modelled as rationals.
-/

namespace UstpNav

/-- A geographic coordinate as shapely stores it: x is longitude, y is latitude. -/
structure Point where
  x : ℚ
  y : ℚ
deriving DecidableEq

/-- A building polygon geometry, given by its exterior ring of vertices. -/
structure Geom where
  ring : List Point
deriving DecidableEq

/-- Consecutive vertex pairs of the closed exterior ring. -/
def ringPairs (ps : List Point) : List (Point × Point) :=
  match ps with
  | [] => []
  | p :: _ => ps.zip (ps.tail ++ [p])

/-- The shapely polygon centroid: the area-weighted centroid formula over the
exterior ring (cross products summed over consecutive closed-ring pairs). -/
def Geom.centroid (g : Geom) : Point :=
  let pairs := ringPairs g.ring
  let a2 := (pairs.map fun pq => pq.1.x * pq.2.y - pq.2.x * pq.1.y).sum
  let sx := (pairs.map fun pq => (pq.1.x + pq.2.x) * (pq.1.x * pq.2.y - pq.2.x * pq.1.y)).sum
  let sy := (pairs.map fun pq => (pq.1.y + pq.2.y) * (pq.1.x * pq.2.y - pq.2.x * pq.1.y)).sum
  ⟨sx / (3 * a2), sy / (3 * a2)⟩

/-- One row of buildings_gdf: a named building with its polygon geometry
(rows of all_features that carry both a building tag and a name). -/
structure BRow where
  name : String
  geometry : Geom
deriving DecidableEq

/-- One row of entrances_gdf: a point feature carrying an entrance tag. -/
structure ERow where
  geometry : Point
deriving DecidableEq

/-- Projection of one building row, as to_crs transforms it: the coordinate
transform is applied to every vertex of the geometry and the name column is
kept unchanged. -/
def projRow (p : Point → Point) (b : BRow) : BRow :=
  ⟨b.name, ⟨b.geometry.ring.map p⟩⟩

/-- GeoDataFrame.to_crs on the buildings frame (src/app.py line 32). -/
def to_crs (p : Point → Point) (bs : List BRow) : List BRow :=
  bs.map (projRow p)

/-- GeoDataFrame.to_crs on the entrances frame (src/app.py line 28); on the
empty frame the source keeps the frame as is (lines 27-30), which coincides
with mapping over the empty list. -/
def entrances_to_crs (p : Point → Point) (es : List ERow) : List ERow :=
  es.map fun e => ⟨p e.geometry⟩

/-- Node attribute record of the walking network: x is longitude, y is latitude. -/
structure NodeData where
  x : ℚ
  y : ℚ
deriving DecidableEq

/-- Edge attribute record: the length weight and the optional curve geometry,
whose coordinates are shapely (x, y) = (longitude, latitude) pairs. -/
structure EdgeData where
  length : ℚ
  geometry : Option (List (ℚ × ℚ))
deriving DecidableEq

/-- The networkx MultiDiGraph returned by graph_from_place: node records keyed
by identifier, and directed edge records (source, target, data).  Parallel
edges are listed in key order, so the key-0 edge is the first listed. -/
structure Graph where
  nodes : List (Nat × NodeData)
  edges : List (Nat × Nat × EdgeData)
deriving DecidableEq

/-- The process-wide state loaded at startup, together with the two external
collaborators the resolver consumes: proj is the EPSG 3857 coordinate
transform applied by to_crs, and dist is the shapely distance between a
projected entrance point and a projected building geometry, in meters. -/
structure Env where
  graph : Graph
  buildings_gdf : List BRow
  entrances_gdf : List ERow
  proj : Point → Point
  dist : Point → Geom → ℚ

/-- Global buildings_proj (src/app.py line 32). -/
def buildings_proj (env : Env) : List BRow :=
  to_crs env.proj env.buildings_gdf

/-- Global entrances_proj (src/app.py lines 27-30). -/
def entrances_proj (env : Env) : List ERow :=
  entrances_to_crs env.proj env.entrances_gdf

/-- The Python exceptions the request handler can surface through its generic
except branch, plus the explicit same-endpoint rejection handled separately. -/
inductive PyErr where
  /-- IndexError raised by .iloc on an empty selection (unknown building name). -/
  | indexError
  /-- KeyError raised by .loc on a missing label. -/
  | keyError
  /-- NodeNotFound raised by the shortest path search for an endpoint missing from the graph. -/
  | nodeNotFound
  /-- NetworkXNoPath raised when the destination is unreachable from the origin. -/
  | noPath
  /-- Failure of nearest_nodes when the graph has no nodes. -/
  | snapErr
  /-- Subscripting the absent edge data of a missing route edge. -/
  | edgeErr
deriving DecidableEq

/-- Series minimum of a list of distances (pandas Series.min). -/
def minOf : List ℚ → ℚ
  | [] => 0
  | [a] => a
  | a :: b :: rest => min a (minOf (b :: rest))

/-- Index of the first occurrence of the minimum (pandas Series.idxmin,
which reports the first row achieving the minimum). -/
def idxmin : List ℚ → Nat
  | [] => 0
  | [_] => 0
  | a :: b :: rest => if a ≤ minOf (b :: rest) then 0 else idxmin (b :: rest) + 1

/-- get_location_point (src/app.py lines 99-127).  Selects the building rows
whose name equals the query in both the original and the projected frame and
takes the first row of each; defaults to the centroid of the original
geometry; if any entrances exist, computes the projected distances from every
entrance to the projected building geometry and, when the minimum is strictly
below 60 meters, overrides the default with the original geometry of the
first entrance achieving that minimum. -/
def get_location_point (env : Env) (building_name : Option String) : Except PyErr Point :=
  match (env.buildings_gdf.filter fun b => building_name = some b.name).head? with
  | none => .error .indexError
  | some b_row =>
    let target_point := b_row.geometry.centroid
    match ((buildings_proj env).filter fun b => building_name = some b.name).head? with
    | none => .error .indexError
    | some b_row_proj =>
      let b_geom_proj := b_row_proj.geometry
      if (entrances_proj env).isEmpty then .ok target_point
      else
        let distances := (entrances_proj env).map fun e => env.dist e.geometry b_geom_proj
        let min_dist := minOf distances
        let closest_idx := idxmin distances
        if min_dist < 60 then
          match env.entrances_gdf.get? closest_idx with
          | some e => .ok e.geometry
          | none => .error .keyError
        else .ok target_point

/-- The projected distances list computed inside get_location_point for a
given projected building geometry. -/
def distsFor (env : Env) (bp : Geom) : List ℚ :=
  (entrances_proj env).map fun e => env.dist e.geometry bp

/-- Squared Euclidean distance between two coordinates, the ranking the
kd-tree nearest neighbor query of nearest_nodes minimizes. -/
def sqDist (x1 y1 x2 y2 : ℚ) : ℚ :=
  (x1 - x2) * (x1 - x2) + (y1 - y2) * (y1 - y2)

/-- ox.nearest_nodes: the graph node closest to the query coordinate, the
lowest-index node winning ties; fails when the graph has no nodes. -/
def nearest_nodes (g : Graph) (x y : ℚ) : Option Nat :=
  match g.nodes with
  | [] => none
  | n0 :: rest =>
    some (rest.foldl
      (fun best n =>
        if sqDist n.2.x n.2.y x y < sqDist best.2.x best.2.y x y then n else best)
      n0).1

/-- Removes the first entry with minimal cost from the frontier and returns
it with the remaining entries; among equal costs the earliest inserted entry
wins, matching the heap counter tie-break of the library search. -/
def pickMin : List (ℚ × List Nat) → Option ((ℚ × List Nat) × List (ℚ × List Nat))
  | [] => none
  | e :: rest =>
    match pickMin rest with
    | none => some (e, [])
    | some (m, rem) => if e.1 ≤ m.1 then some (e, rest) else some (m, e :: rem)

/-- The Dijkstra loop of the weighted shortest path search.  Each frontier
entry stores the accumulated cost and the path walked so far in reverse, the
current node first.  A node is expanded at most once; the fuel bounds the
number of pops, which never exceeds the number of insertions. -/
def dijkstra (g : Graph) (d : Nat) :
    Nat → List Nat → List (ℚ × List Nat) → Except PyErr (List Nat)
  | 0, _, _ => .error .noPath
  | fuel + 1, visited, frontier =>
    match pickMin frontier with
    | none => .error .noPath
    | some ((c, path), rest) =>
      match path with
      | [] => .error .noPath
      | n :: _ =>
        if n = d then .ok path.reverse
        else if visited.contains n then dijkstra g d fuel visited rest
        else
          dijkstra g d fuel (n :: visited)
            (rest ++ (g.edges.filter fun e => e.1 = n).map
              fun e => (c + e.2.2.length, e.2.1 :: path))

/-- nx.shortest_path with the length weight (src/app.py line 161): raises
NodeNotFound when an endpoint is missing from the graph, returns the single
node path when origin equals destination, and raises NetworkXNoPath when the
destination is unreachable.  The fuel exceeds the total number of frontier
insertions, so the search is exhaustive. -/
def shortest_path (g : Graph) (o d : Nat) : Except PyErr (List Nat) :=
  if (g.nodes.any fun n => n.1 = o) && (g.nodes.any fun n => n.1 = d) then
    dijkstra g d (g.edges.length + 2) [] [(0, [o])]
  else .error .nodeNotFound

/-- Node attribute access G.nodes with the x and y fields. -/
def nodeXY (g : Graph) (n : Nat) : Option NodeData :=
  (g.nodes.find? fun p => p.1 = n).map (·.2)

/-- G.get_edge_data(u, v)[0]: the data of the key-0 parallel edge from u to
v, which is the first listed edge between them; absent when no such edge
exists. -/
def get_edge_data (g : Graph) (u v : Nat) : Option EdgeData :=
  (g.edges.find? fun e => e.1 = u && e.2.1 = v).map (·.2.2)

/-- One iteration of the stitch loop body (src/app.py lines 169-177) for the
consecutive pair (u, v): when the edge carries a curve geometry, its
coordinates are appended exactly as stored, each (longitude, latitude) pair
swapped to (latitude, longitude); otherwise the coordinate of v alone is
appended. -/
def stitchStep (g : Graph) (u v : Nat) : Option (List (ℚ × ℚ)) :=
  match get_edge_data g u v with
  | none => none
  | some edge_data =>
    match edge_data.geometry with
    | some cs => some (cs.map fun c => (c.2, c.1))
    | none => (nodeXY g v).map fun nd => [(nd.y, nd.x)]

/-- Concatenation of the stitch loop over all consecutive pairs. -/
def stitchPairs (g : Graph) : List (Nat × Nat) → Option (List (ℚ × ℚ))
  | [] => some []
  | (u, v) :: rest =>
    match stitchStep g u v, stitchPairs g rest with
    | some s, some r => some (s ++ r)
    | _, _ => none

/-- The geometry extraction of the navigate handler (src/app.py lines
164-177): the output is seeded with the coordinate of the first route node
and extended by the loop body over consecutive pairs. -/
def stitch (g : Graph) (route : List Nat) : Option (List (ℚ × ℚ)) :=
  match route with
  | [] => none
  | r0 :: _ =>
    match nodeXY g r0 with
    | none => none
    | some nd =>
      (stitchPairs g (route.zip route.tail)).map fun rest => (nd.y, nd.x) :: rest

/-- The parsed JSON body of a navigate request: dict.get returns the field
value when present and None when the key is absent. -/
structure Req where
  start_point : Option String
  end_point : Option String
deriving DecidableEq

/-- The observable steps the handler performs, in order: building lookups,
point snapping and the path search. -/
inductive Op where
  | lookup (q : Option String)
  | snap (p : Point)
  | search (o d : Nat)
deriving DecidableEq

/-- The handler response: the explicit 400 rejection, the generic 500 branch
carrying the raised exception, or the success payload with the stitched
coordinates and both endpoint points. -/
inductive NavResult where
  | badRequest (msg : String)
  | serverError (e : PyErr)
  | ok (route_coords : List (ℚ × ℚ)) (orig dest : Point)
deriving DecidableEq

/-- HTTP status code of a handler response. -/
def statusCode : NavResult → Nat
  | .badRequest _ => 400
  | .serverError _ => 500
  | .ok _ _ _ => 200

/-- The navigate handler (src/app.py lines 142-186) together with the trace
of the building lookups, snaps and path searches it performed, in execution
order.  The equality guard compares the raw extracted field values; every
exception of a later stage lands in the generic except branch as a 500
response. -/
def navigateT (env : Env) (req : Req) : NavResult × List Op :=
  if req.start_point = req.end_point then
    (.badRequest "Start and Destination cannot be the same.", [])
  else
    let t1 : List Op := [.lookup req.start_point]
    match get_location_point env req.start_point with
    | .error e => (.serverError e, t1)
    | .ok orig_point =>
      let t2 := t1 ++ [.lookup req.end_point]
      match get_location_point env req.end_point with
      | .error e => (.serverError e, t2)
      | .ok dest_point =>
        let t3 := t2 ++ [.snap orig_point]
        match nearest_nodes env.graph orig_point.x orig_point.y with
        | none => (.serverError .snapErr, t3)
        | some orig_node =>
          let t4 := t3 ++ [.snap dest_point]
          match nearest_nodes env.graph dest_point.x dest_point.y with
          | none => (.serverError .snapErr, t4)
          | some dest_node =>
            let t5 := t4 ++ [.search orig_node dest_node]
            match shortest_path env.graph orig_node dest_node with
            | .error e => (.serverError e, t5)
            | .ok route =>
              match stitch env.graph route with
              | none => (.serverError .edgeErr, t5)
              | some route_coords =>
                (.ok route_coords orig_point dest_point, t5)

/-- The navigate handler response alone. -/
def navigate (env : Env) (req : Req) : NavResult :=
  (navigateT env req).1

/-- Decidable edge existence between two nodes, in the direction stored. -/
def hasEdgeB (g : Graph) (u v : Nat) : Bool :=
  g.edges.any fun e => e.1 = u && e.2.1 = v

/-- Decidable predicate: consecutive nodes of the list are joined by stored
edges, in the forward direction of the list. -/
def chainB (g : Graph) : List Nat → Bool
  | u :: v :: rest => hasEdgeB g u v && chainB g (v :: rest)
  | _ => true

/-- The well-formedness invariant the loaded network data satisfies and the
stitcher relies on: whenever a stored edge carries a curve geometry, both
endpoint nodes exist and the curve starts at the coordinate of the source
node and ends at the coordinate of the target node (the per-direction curve
storage of the loaded graph). -/
def GeomOK (g : Graph) : Prop :=
  ∀ u v ed cs, get_edge_data g u v = some ed → ed.geometry = some cs →
    ∃ ndu ndv, nodeXY g u = some ndu ∧ nodeXY g v = some ndv ∧
      cs.head? = some (ndu.x, ndu.y) ∧ cs.getLast? = some (ndv.x, ndv.y)

/-- The body of get_location_point once both first-match lookups have been
resolved to the row b_row (original frame) and its projection. -/
def resolveRow (env : Env) (b_row : BRow) : Except PyErr Point :=
  let target_point := b_row.geometry.centroid
  let b_geom_proj := (projRow env.proj b_row).geometry
  if (entrances_proj env).isEmpty then .ok target_point
  else
    let distances := distsFor env b_geom_proj
    if minOf distances < 60 then
      match env.entrances_gdf.get? (idxmin distances) with
      | some e => .ok e.geometry
      | none => .error .keyError
    else .ok target_point

section ResolverLemmas

theorem minOf_le (ds : List ℚ) : ∀ x ∈ ds, minOf ds ≤ x := by
  induction ds with
  | nil => intro x hx; cases hx
  | cons a rest ih =>
    cases rest with
    | nil =>
      intro x hx
      rcases List.mem_singleton.mp hx with rfl
      exact le_refl x
    | cons b rest2 =>
      intro x hx
      rcases List.mem_cons.mp hx with rfl | hx2
      · exact min_le_left _ _
      · exact le_trans (min_le_right _ _) (ih x hx2)

theorem minOf_mem (ds : List ℚ) (h : ds ≠ []) : minOf ds ∈ ds := by
  induction ds with
  | nil => exact absurd rfl h
  | cons a rest ih =>
    cases rest with
    | nil => exact List.mem_singleton.mpr rfl
    | cons b rest2 =>
      show min a (minOf (b :: rest2)) ∈ a :: b :: rest2
      rcases min_choice a (minOf (b :: rest2)) with hm | hm
      · rw [hm]; exact List.mem_cons_self _ _
      · rw [hm]; exact List.mem_cons_of_mem a (ih (by simp))

theorem idxmin_lt_length (ds : List ℚ) (h : ds ≠ []) : idxmin ds < ds.length := by
  induction ds with
  | nil => exact absurd rfl h
  | cons a rest ih =>
    cases rest with
    | nil => simp [idxmin]
    | cons b rest2 =>
      show (if a ≤ minOf (b :: rest2) then 0 else idxmin (b :: rest2) + 1) < _
      by_cases hle : a ≤ minOf (b :: rest2)
      · simp [hle]
      · simpa [hle, Nat.succ_lt_succ_iff] using ih (by simp)

theorem idxmin_get (ds : List ℚ) (h : ds ≠ []) : ds.get? (idxmin ds) = some (minOf ds) := by
  induction ds with
  | nil => exact absurd rfl h
  | cons a rest ih =>
    cases rest with
    | nil => rfl
    | cons b rest2 =>
      show (a :: b :: rest2).get? (if a ≤ minOf (b :: rest2) then 0 else idxmin (b :: rest2) + 1)
        = some (minOf (a :: b :: rest2))
      by_cases hle : a ≤ minOf (b :: rest2)
      · simp [hle, minOf, min_eq_left hle]
      · have hmin : min a (minOf (b :: rest2)) = minOf (b :: rest2) :=
          min_eq_right (le_of_not_le hle)
        simpa [hle, minOf, hmin] using ih (by simp)

theorem idxmin_first (ds : List ℚ) :
    ∀ j, j < idxmin ds → ∀ y, ds.get? j = some y → minOf ds < y := by
  induction ds with
  | nil => intro j hj; simp [idxmin] at hj
  | cons a rest ih =>
    cases rest with
    | nil => intro j hj; simp [idxmin] at hj
    | cons b rest2 =>
      intro j hj y hy
      by_cases hle : a ≤ minOf (b :: rest2)
      · simp [idxmin, hle] at hj
      · have hj2 : j < idxmin (b :: rest2) + 1 := by simpa [idxmin, hle] using hj
        have hmin : minOf (a :: b :: rest2) = minOf (b :: rest2) :=
          min_eq_right (le_of_not_le hle)
        cases j with
        | zero =>
          have hya : a = y := by simpa using hy
          subst hya
          exact hmin ▸ lt_of_not_le hle
        | succ k =>
          have hk : k < idxmin (b :: rest2) := Nat.lt_of_succ_lt_succ hj2
          have : (b :: rest2).get? k = some y := by simpa using hy
          exact hmin ▸ ih k hk y this

theorem filter_to_crs (p : Point → Point) (q : Option String) (bs : List BRow) :
    (to_crs p bs).filter (fun b => q = some b.name) =
      (bs.filter fun b => q = some b.name).map (projRow p) := by
  exact List.filter_map (projRow p) bs

theorem lookup_proj (env : Env) (q : Option String) :
    ((buildings_proj env).filter fun b => q = some b.name).head? =
      ((env.buildings_gdf.filter fun b => q = some b.name).head?).map (projRow env.proj) := by
  rw [buildings_proj, filter_to_crs]
  cases env.buildings_gdf.filter fun b => q = some b.name <;> rfl

theorem glp_eq_resolveRow (env : Env) (q : Option String) (b_row : BRow)
    (hb : (env.buildings_gdf.filter fun b => q = some b.name).head? = some b_row) :
    get_location_point env q = resolveRow env b_row := by
  unfold get_location_point
  rw [hb, lookup_proj, hb]
  rfl

theorem glp_err_of_missing (env : Env) (q : Option String)
    (h : (env.buildings_gdf.filter fun b => q = some b.name) = []) :
    get_location_point env q = .error .indexError := by
  unfold get_location_point
  rw [h]
  rfl

theorem distsFor_length (env : Env) (bp : Geom) :
    (distsFor env bp).length = env.entrances_gdf.length := by
  simp [distsFor, entrances_proj, entrances_to_crs]

theorem resolveRow_ok (env : Env) (b_row : BRow) :
    ∃ p, resolveRow env b_row = .ok p := by
  simp only [resolveRow]
  by_cases hemp : (entrances_proj env).isEmpty
  · exact ⟨_, by rw [if_pos hemp]⟩
  · rw [if_neg hemp]
    by_cases hmin : minOf (distsFor env (projRow env.proj b_row).geometry) < 60
    · rw [if_pos hmin]
      have hne : distsFor env (projRow env.proj b_row).geometry ≠ [] := by
        simp only [distsFor, ne_eq, List.map_eq_nil_iff]
        intro hc
        exact hemp (by simp [hc])
      have hlt := idxmin_lt_length _ hne
      rw [distsFor_length] at hlt
      cases hg : env.entrances_gdf.get? (idxmin (distsFor env (projRow env.proj b_row).geometry)) with
      | none => exact absurd (List.get?_eq_none.mp hg) (not_le.mpr hlt)
      | some e => exact ⟨e.geometry, rfl⟩
    · exact ⟨_, by rw [if_neg hmin]⟩

theorem glp_err_cases (env : Env) (q : Option String) (e : PyErr)
    (h : get_location_point env q = .error e) : e = .indexError := by
  cases hb : (env.buildings_gdf.filter fun b => q = some b.name).head? with
  | none =>
    have hnil : (env.buildings_gdf.filter fun b => q = some b.name) = [] :=
      List.head?_eq_none_iff.mp hb
    rw [glp_err_of_missing env q hnil] at h
    injection h with h2
    exact h2.symm
  | some b_row =>
    rw [glp_eq_resolveRow env q b_row hb] at h
    rcases resolveRow_ok env b_row with ⟨p, hp⟩
    rw [hp] at h
    cases h

end ResolverLemmas

/-- C1: for a building found in the loaded collection, the resolver returns
the original coordinate of the nearest entrance whenever some entrance lies
strictly within the 60 meter threshold of the projected building geometry
(ties between equally near entrances broken by the first row), and returns
the polygon centroid of the building exactly when there is no entrance at
all or every entrance is at least 60 meters away.  The distances list is the
one the resolver computes: the projected distance from each entrance to the
projected geometry of the first matching building row. -/
theorem C1_location_resolver (env : Env) (q : Option String) (b_row : BRow)
    (hb : (env.buildings_gdf.filter fun b => q = some b.name).head? = some b_row) :
    ((distsFor env (projRow env.proj b_row).geometry = [] ∨
        ∀ x ∈ distsFor env (projRow env.proj b_row).geometry, 60 ≤ x) →
      get_location_point env q = .ok b_row.geometry.centroid)
    ∧ (∀ i m, (distsFor env (projRow env.proj b_row).geometry).get? i = some m →
        m < 60 →
        (∀ x ∈ distsFor env (projRow env.proj b_row).geometry, m ≤ x) →
        (∀ j y, j < i → (distsFor env (projRow env.proj b_row).geometry).get? j = some y →
          m < y) →
        ∃ e, env.entrances_gdf.get? i = some e ∧
          get_location_point env q = .ok e.geometry) := by
  rw [glp_eq_resolveRow env q b_row hb]
  have hempds : (entrances_proj env).isEmpty = true ↔
      distsFor env (projRow env.proj b_row).geometry = [] := by
    simp [distsFor, List.isEmpty_iff]
  constructor
  · intro hfar
    simp only [resolveRow]
    rcases hfar with hnil | hfar
    · rw [if_pos (hempds.mpr hnil)]
    · by_cases hemp : (entrances_proj env).isEmpty
      · rw [if_pos hemp]
      · rw [if_neg hemp]
        have hne : distsFor env (projRow env.proj b_row).geometry ≠ [] :=
          fun hc => hemp (hempds.mpr hc)
        have h60 : 60 ≤ minOf (distsFor env (projRow env.proj b_row).geometry) :=
          hfar _ (minOf_mem _ hne)
        rw [if_neg (not_lt.mpr h60)]
  · intro i m hget hm60 hlb hfirst
    have hmem : m ∈ distsFor env (projRow env.proj b_row).geometry := List.get?_mem hget
    have hne : distsFor env (projRow env.proj b_row).geometry ≠ [] :=
      List.ne_nil_of_mem hmem
    have hmmin : m = minOf (distsFor env (projRow env.proj b_row).geometry) :=
      le_antisymm (hlb _ (minOf_mem _ hne)) (minOf_le _ _ hmem)
    have hidx : idxmin (distsFor env (projRow env.proj b_row).geometry) = i := by
      rcases Nat.lt_trichotomy (idxmin (distsFor env (projRow env.proj b_row).geometry)) i
        with hlt | heq | hgt
      · exact absurd (hfirst _ _ hlt (idxmin_get _ hne))
          (not_lt.mpr (hmmin ▸ le_refl m))
      · exact heq
      · exact absurd (idxmin_first _ i hgt m hget) (not_lt.mpr (le_of_eq hmmin))
    simp only [resolveRow]
    rw [if_neg (fun hc => hne (hempds.mp hc))]
    rw [if_pos (hmmin ▸ hm60), hidx]
    have hlen : i < env.entrances_gdf.length := by
      have := idxmin_lt_length _ hne
      rw [distsFor_length] at this
      exact hidx ▸ this
    cases hg : env.entrances_gdf.get? i with
    | none => exact absurd (List.get?_eq_none.mp hg) (not_le.mpr hlen)
    | some e => exact ⟨e, rfl, rfl⟩

/-- Witness for C1 at a concrete environment: one building named A and a
single entrance whose projected distance is 10 meters, so the resolver
returns the entrance coordinate. -/
def triC1 : Geom := ⟨[⟨0, 0⟩, ⟨2, 0⟩, ⟨0, 2⟩]⟩

def envC1 : Env :=
  { graph := { nodes := [(1, ⟨0, 0⟩)], edges := [] },
    buildings_gdf := [⟨"A", triC1⟩],
    entrances_gdf := [⟨⟨5, 5⟩⟩],
    proj := id,
    dist := fun _ _ => 10 }

/-- Witness for C1: the entrance within 10 meters overrides the centroid. -/
theorem C1_location_resolver_witness :
    ∃ e, envC1.entrances_gdf.get? 0 = some e ∧
      get_location_point envC1 (some "A") = .ok e.geometry :=
  (C1_location_resolver envC1 (some "A") ⟨"A", triC1⟩ (by decide)).2 0 10 (by decide)
    (by decide) (by decide)
    (fun j y hj _ => absurd hj (Nat.not_lt_zero j))

/-- C9: when the building collection carries several rows with the same name,
the resolver is computed from the first matching row, in both the original
and the projected frame: the result is exactly the resolver body applied to
that first row. -/
theorem C9_first_match_lookup (env : Env) (name : String) (pre post : List BRow) (b : BRow)
    (hsplit : env.buildings_gdf = pre ++ b :: post)
    (hname : b.name = name)
    (hpre : ∀ c ∈ pre, c.name ≠ name) :
    get_location_point env (some name) = resolveRow env b := by
  have hb : (env.buildings_gdf.filter fun c => some name = some c.name).head? = some b := by
    rw [hsplit, List.filter_append]
    have hnil : (pre.filter fun c => some name = some c.name) = [] := by
      rw [List.filter_eq_nil_iff]
      intro c hc
      simp only [Option.some.injEq, decide_eq_true_eq]
      exact fun hn => hpre c hc hn.symm
    rw [hnil, List.nil_append, List.filter_cons,
      if_pos (by simp [hname])]
    rfl
  exact glp_eq_resolveRow env (some name) b hb

/-- Witness environment for C9: two building rows share the name A with
different geometries. -/
def triC9b : Geom := ⟨[⟨10, 10⟩, ⟨12, 10⟩, ⟨10, 12⟩]⟩

def envC9 : Env :=
  { graph := { nodes := [(1, ⟨0, 0⟩)], edges := [] },
    buildings_gdf := [⟨"A", triC1⟩, ⟨"A", triC9b⟩],
    entrances_gdf := [],
    proj := id,
    dist := fun _ _ => 0 }

/-- Witness for C9: with two rows named A, the resolver output is the
resolver body applied to the first row. -/
theorem C9_first_match_lookup_witness :
    get_location_point envC9 (some "A") = resolveRow envC9 ⟨"A", triC1⟩ :=
  C9_first_match_lookup envC9 "A" [] [⟨"A", triC9b⟩] ⟨"A", triC1⟩ rfl rfl
    (fun c hc => absurd hc (List.not_mem_nil c))

/-- C5: a navigate request with distinct raw identifiers where the start or
the end name matches no loaded building fails with the not-found error
(the IndexError of the empty first-match selection, surfaced as the 500
error response) and is never a success response carrying coordinates. -/
theorem C5_unknown_building_not_found (env : Env) (req : Req)
    (hne : req.start_point ≠ req.end_point)
    (hmiss : (env.buildings_gdf.filter fun b => req.start_point = some b.name) = [] ∨
      (env.buildings_gdf.filter fun b => req.end_point = some b.name) = []) :
    navigate env req = .serverError .indexError ∧
      ∀ cs p1 p2, navigate env req ≠ .ok cs p1 p2 := by
  have hmain : navigate env req = .serverError .indexError := by
    unfold navigate navigateT
    rw [if_neg hne]
    rcases hmiss with h | h
    · rw [glp_err_of_missing env req.start_point h]
    · cases hglp : get_location_point env req.start_point with
      | error e =>
        rw [glp_err_cases env req.start_point e hglp]
      | ok p =>
        rw [glp_err_of_missing env req.end_point h]
  exact ⟨hmain, fun cs p1 p2 hc => by rw [hmain] at hc; cases hc⟩

/-- Witness environment for C5: one known building A, and a request naming
the unknown building C as destination. -/
def envC5 : Env :=
  { graph := { nodes := [(1, ⟨0, 0⟩)], edges := [] },
    buildings_gdf := [⟨"A", triC1⟩],
    entrances_gdf := [],
    proj := id,
    dist := fun _ _ => 0 }

/-- Witness for C5 at a concrete unknown destination name. -/
theorem C5_unknown_building_not_found_witness :
    navigate envC5 ⟨some "A", some "C"⟩ = .serverError .indexError ∧
      ∀ cs p1 p2, navigate envC5 ⟨some "A", some "C"⟩ ≠ .ok cs p1 p2 :=
  C5_unknown_building_not_found envC5 ⟨some "A", some "C"⟩ (by decide) (Or.inr (by decide))

/-- C4: when both raw identifiers are the same string, the handler answers
the fixed same-endpoint rejection with status 400, and its operation trace
is empty: no building lookup, no snap and no path search was performed. -/
theorem C4_same_endpoint_rejected_first (env : Env) (req : Req) (s : String)
    (h1 : req.start_point = some s) (h2 : req.end_point = some s) :
    navigateT env req = (.badRequest "Start and Destination cannot be the same.", []) ∧
      statusCode (navigate env req) = 400 := by
  have heq : req.start_point = req.end_point := h1.trans h2.symm
  constructor
  · unfold navigateT
    rw [if_pos heq]
  · unfold navigate navigateT
    rw [if_pos heq]
    rfl

/-- Witness for C4 at a concrete request naming the same building twice. -/
theorem C4_same_endpoint_rejected_first_witness :
    navigateT envC5 ⟨some "A", some "A"⟩ =
        (.badRequest "Start and Destination cannot be the same.", []) ∧
      statusCode (navigate envC5 ⟨some "A", some "A"⟩) = 400 :=
  C4_same_endpoint_rejected_first envC5 ⟨some "A", some "A"⟩ "A" rfl rfl

/-- C10: when the request body lacks both endpoint fields, the two extracted
raw values are both None and hence equal, so the handler answers the
same-endpoint rejection with status 400 and an empty operation trace: the
equality guard runs on the raw extracted values before any building
lookup. -/
theorem C10_missing_fields_same_endpoint (env : Env) (req : Req)
    (h1 : req.start_point = none) (h2 : req.end_point = none) :
    navigateT env req = (.badRequest "Start and Destination cannot be the same.", []) ∧
      statusCode (navigate env req) = 400 := by
  have heq : req.start_point = req.end_point := h1.trans h2.symm
  constructor
  · unfold navigateT
    rw [if_pos heq]
  · unfold navigate navigateT
    rw [if_pos heq]
    rfl

/-- Witness for C10 at the request whose body carries neither field. -/
theorem C10_missing_fields_same_endpoint_witness :
    navigateT envC5 ⟨none, none⟩ =
        (.badRequest "Start and Destination cannot be the same.", []) ∧
      statusCode (navigate envC5 ⟨none, none⟩) = 400 :=
  C10_missing_fields_same_endpoint envC5 ⟨none, none⟩ rfl rfl

/-- C8: the handler is a pure function of the loaded data and the request:
any two invocations with the same environment and the same inputs yield the
same response, coordinate sequence included.  The embedded search breaks
frontier ties by insertion order, so no stage introduces nondeterminism. -/
theorem C8_navigate_deterministic (env : Env) (req : Req) (r1 r2 : NavResult)
    (h1 : navigate env req = r1) (h2 : navigate env req = r2) : r1 = r2 :=
  h1 ▸ h2

/-- Witness environment for C8: two buildings joined by one network edge. -/
def envC8 : Env :=
  { graph := { nodes := [(1, ⟨0, 0⟩), (2, ⟨10, 0⟩)],
               edges := [(1, 2, ⟨10, none⟩), (2, 1, ⟨10, none⟩)] },
    buildings_gdf := [⟨"A", triC1⟩, ⟨"B", ⟨[⟨10, 0⟩, ⟨11, 0⟩, ⟨10, 1⟩]⟩⟩],
    entrances_gdf := [],
    proj := id,
    dist := fun _ _ => 0 }

/-- Witness for C8: both hypotheses discharged by evaluating the same call,
pinning the repeated-response value. -/
theorem C8_navigate_deterministic_witness :
    navigate envC8 ⟨some "A", some "B"⟩ =
      .ok [(0, 0), (0, 10)] ⟨2/3, 2/3⟩ ⟨31/3, 1/3⟩ :=
  C8_navigate_deterministic envC8 ⟨some "A", some "B"⟩ _ _ rfl (by with_unfolding_all decide)

section GraphLemmas

/-- Chain predicate on the reversed representation the search frontier
stores: the current node first, the origin last. -/
def revChainB (g : Graph) : List Nat → Bool
  | v :: u :: rest => hasEdgeB g u v && revChainB g (u :: rest)
  | _ => true

theorem chainB_append_singleton (g : Graph) :
    ∀ (xs : List Nat) (v : Nat),
      chainB g (xs ++ [v]) =
        (chainB g xs &&
          (match xs.getLast? with | none => true | some u => hasEdgeB g u v))
  | [], v => by simp [chainB]
  | [a], v => by simp [chainB]
  | a :: b :: xs, v => by
    have ih := chainB_append_singleton g (b :: xs) v
    show chainB g (a :: b :: (xs ++ [v])) = _
    show (hasEdgeB g a b && chainB g (b :: (xs ++ [v]))) = _
    rw [show (b :: (xs ++ [v])) = (b :: xs) ++ [v] from rfl, ih,
      List.getLast?_cons_cons]
    show _ = ((hasEdgeB g a b && chainB g (b :: xs)) && _)
    rw [Bool.and_assoc]

theorem chainB_reverse (g : Graph) :
    ∀ (p : List Nat), chainB g p.reverse = revChainB g p
  | [] => rfl
  | [_] => rfl
  | v :: u :: rest => by
    have ih := chainB_reverse g (u :: rest)
    rw [List.reverse_cons, chainB_append_singleton, List.getLast?_reverse]
    show (chainB g (u :: rest).reverse && hasEdgeB g u v) = _
    rw [ih]
    show (revChainB g (u :: rest) && hasEdgeB g u v) =
      (hasEdgeB g u v && revChainB g (u :: rest))
    rw [Bool.and_comm]

theorem pickMin_mem :
    ∀ (l : List (ℚ × List Nat)) (m : ℚ × List Nat) (rem : List (ℚ × List Nat)),
      pickMin l = some (m, rem) → m ∈ l ∧ ∀ x ∈ rem, x ∈ l := by
  intro l
  induction l with
  | nil => intro m rem h; cases h
  | cons e rest ih =>
    intro m rem h
    rw [pickMin] at h
    cases hp : pickMin rest with
    | none =>
      rw [hp] at h
      injection h with h2
      injection h2 with ha hb
      subst ha; subst hb
      exact ⟨List.mem_cons_self _ _, fun x hx => absurd hx (List.not_mem_nil x)⟩
    | some pr =>
      obtain ⟨m2, rem2⟩ := pr
      rw [hp] at h
      dsimp only at h
      rcases ih m2 rem2 hp with ⟨hm2, hrem2⟩
      by_cases hle : e.1 ≤ m2.1
      · rw [if_pos hle] at h
        injection h with h2
        injection h2 with ha hb
        subst ha; subst hb
        exact ⟨List.mem_cons_self _ _, fun x hx => List.mem_cons_of_mem _ hx⟩
      · rw [if_neg hle] at h
        injection h with h2
        injection h2 with ha hb
        subst ha; subst hb
        refine ⟨List.mem_cons_of_mem _ hm2, fun x hx => ?_⟩
        rcases List.mem_cons.mp hx with rfl | hx2
        · exact List.mem_cons_self _ _
        · exact List.mem_cons_of_mem _ (hrem2 x hx2)

/-- The frontier invariant of the search: every stored reversed path is
nonempty, starts (in travel order) at the origin and walks stored edges. -/
def Inv (g : Graph) (o : Nat) (cp : ℚ × List Nat) : Prop :=
  cp.2 ≠ [] ∧ cp.2.getLast? = some o ∧ revChainB g cp.2 = true

theorem dijkstra_sound (g : Graph) (o d : Nat) :
    ∀ (fuel : Nat) (visited : List Nat) (frontier : List (ℚ × List Nat)),
      (∀ cp ∈ frontier, Inv g o cp) →
      ∀ r, dijkstra g d fuel visited frontier = .ok r →
        r.head? = some o ∧ r.getLast? = some d ∧ chainB g r = true := by
  intro fuel
  induction fuel with
  | zero => intro visited frontier _ r h; cases h
  | succ fuel ih =>
    intro visited frontier hinv r h
    rw [dijkstra] at h
    cases hp : pickMin frontier with
    | none => rw [hp] at h; cases h
    | some pr =>
      obtain ⟨⟨c, path⟩, rest⟩ := pr
      rw [hp] at h
      have hmem := pickMin_mem frontier (c, path) rest hp
      have hinv_cp : Inv g o (c, path) := hinv _ hmem.1
      have hinv_rest : ∀ cp ∈ rest, Inv g o cp := fun cp hcp => hinv _ (hmem.2 cp hcp)
      cases path with
      | nil => exact absurd rfl hinv_cp.1
      | cons n tail =>
        dsimp only at h
        by_cases hnd : n = d
        · rw [if_pos hnd] at h
          injection h with h2
          subst h2
          refine ⟨?_, ?_, ?_⟩
          · rw [List.head?_reverse]; exact hinv_cp.2.1
          · rw [List.getLast?_reverse]
            show some n = some d
            rw [hnd]
          · rw [chainB_reverse]; exact hinv_cp.2.2
        · rw [if_neg hnd] at h
          by_cases hvis : (visited.contains n) = true
          · rw [if_pos hvis] at h
            exact ih visited rest hinv_rest r h
          · rw [if_neg hvis] at h
            refine ih _ _ ?_ r h
            intro cp hcp
            rcases List.mem_append.mp hcp with hcp | hcp
            · exact hinv_rest cp hcp
            · rcases List.mem_map.mp hcp with ⟨e, he, rfl⟩
              have hef := List.mem_filter.mp he
              have hen : e.1 = n := by simpa using hef.2
              refine ⟨by simp, ?_, ?_⟩
              · show (e.2.1 :: n :: tail).getLast? = some o
                rw [List.getLast?_cons_cons]
                exact hinv_cp.2.1
              · show (hasEdgeB g n e.2.1 && revChainB g (n :: tail)) = true
                rw [Bool.and_eq_true]
                refine ⟨?_, hinv_cp.2.2⟩
                rw [hasEdgeB, List.any_eq_true]
                exact ⟨e, hef.1, by simp [hen]⟩

theorem dijkstra_err (g : Graph) (d : Nat) :
    ∀ (fuel : Nat) (visited : List Nat) (frontier : List (ℚ × List Nat)) (e : PyErr),
      dijkstra g d fuel visited frontier = .error e → e = .noPath := by
  intro fuel
  induction fuel with
  | zero =>
    intro _ _ e h
    rw [dijkstra] at h
    injection h with h2
    exact h2.symm
  | succ fuel ih =>
    intro visited frontier e h
    rw [dijkstra] at h
    cases hp : pickMin frontier with
    | none => rw [hp] at h; injection h with h2; exact h2.symm
    | some pr =>
      obtain ⟨⟨c, path⟩, rest⟩ := pr
      rw [hp] at h
      cases path with
      | nil => dsimp only at h; injection h with h2; exact h2.symm
      | cons n tail =>
        dsimp only at h
        by_cases hnd : n = d
        · rw [if_pos hnd] at h; cases h
        · rw [if_neg hnd] at h
          by_cases hvis : (visited.contains n) = true
          · rw [if_pos hvis] at h; exact ih _ _ _ h
          · rw [if_neg hvis] at h; exact ih _ _ _ h

theorem shortest_path_sound (g : Graph) (o d : Nat) (r : List Nat)
    (h : shortest_path g o d = .ok r) :
    r.head? = some o ∧ r.getLast? = some d ∧ chainB g r = true := by
  unfold shortest_path at h
  by_cases hg : ((g.nodes.any fun n => n.1 = o) && (g.nodes.any fun n => n.1 = d)) = true
  · rw [if_pos hg] at h
    refine dijkstra_sound g o d _ _ _ ?_ r h
    intro cp hcp
    rcases List.mem_singleton.mp hcp with rfl
    exact ⟨by simp, rfl, rfl⟩
  · rw [if_neg hg] at h; cases h

theorem shortest_path_err (g : Graph) (o d : Nat) (e : PyErr)
    (hno : (g.nodes.any fun n => n.1 = o) = true)
    (hnd : (g.nodes.any fun n => n.1 = d) = true)
    (h : shortest_path g o d = .error e) : e = .noPath := by
  unfold shortest_path at h
  rw [if_pos (by rw [hno, hnd]; rfl)] at h
  exact dijkstra_err g d _ _ _ e h

theorem foldl_nearest_mem (x y : ℚ) :
    ∀ (rest : List (Nat × NodeData)) (n0 : Nat × NodeData),
      (rest.foldl (fun best n =>
        if sqDist n.2.x n.2.y x y < sqDist best.2.x best.2.y x y then n else best) n0)
        ∈ n0 :: rest := by
  intro rest
  induction rest with
  | nil => intro n0; exact List.mem_singleton.mpr rfl
  | cons a rest ih =>
    intro n0
    rw [List.foldl_cons]
    have hstep := ih (if sqDist a.2.x a.2.y x y < sqDist n0.2.x n0.2.y x y then a else n0)
    rcases List.mem_cons.mp hstep with heq | hmem
    · rw [heq]
      by_cases hc : sqDist a.2.x a.2.y x y < sqDist n0.2.x n0.2.y x y
      · rw [if_pos hc]; exact List.mem_cons_of_mem _ (List.mem_cons_self _ _)
      · rw [if_neg hc]; exact List.mem_cons_self _ _
    · exact List.mem_cons_of_mem _ (List.mem_cons_of_mem _ hmem)

theorem nearest_nodes_any (g : Graph) (x y : ℚ) (n : Nat)
    (h : nearest_nodes g x y = some n) : (g.nodes.any fun p => p.1 = n) = true := by
  unfold nearest_nodes at h
  cases hg : g.nodes with
  | nil => rw [hg] at h; cases h
  | cons n0 rest =>
    rw [hg] at h
    injection h with h2
    rw [List.any_eq_true]
    refine ⟨rest.foldl
      (fun best n =>
        if sqDist n.2.x n.2.y x y < sqDist best.2.x best.2.y x y then n else best) n0,
      ?_, ?_⟩
    · exact foldl_nearest_mem x y rest n0
    · simp [h2]

end GraphLemmas

section StitchLemmas

theorem stitchStep_last (g : Graph) (hgeo : GeomOK g) (u v : Nat) (s : List (ℚ × ℚ))
    (hs : stitchStep g u v = some s) :
    s ≠ [] ∧ ∃ nd, nodeXY g v = some nd ∧ s.getLast? = some (nd.y, nd.x) := by
  unfold stitchStep at hs
  cases hed : get_edge_data g u v with
  | none => rw [hed] at hs; cases hs
  | some ed =>
    rw [hed] at hs
    dsimp only at hs
    cases hgm : ed.geometry with
    | some cs =>
      rw [hgm] at hs
      injection hs with hs2
      rcases hgeo u v ed cs hed hgm with ⟨ndu, ndv, _, hv, _, hl⟩
      subst hs2
      constructor
      · intro hc
        rw [List.map_eq_nil_iff] at hc
        rw [hc] at hl
        cases hl
      · refine ⟨ndv, hv, ?_⟩
        rw [List.getLast?_map, hl]
        rfl
    | none =>
      rw [hgm] at hs
      cases hnv : nodeXY g v with
      | none => rw [hnv] at hs; cases hs
      | some nd =>
        rw [hnv] at hs
        injection hs with hs2
        subst hs2
        exact ⟨by simp, nd, rfl, rfl⟩

theorem stitchPairs_last (g : Graph) (hgeo : GeomOK g) :
    ∀ (rest : List Nat) (r0 : Nat) (res : List (ℚ × ℚ)),
      stitchPairs g ((r0 :: rest).zip rest) = some res →
      (rest = [] ∧ res = []) ∨
      (res ≠ [] ∧ ∃ vl nd, rest.getLast? = some vl ∧ nodeXY g vl = some nd ∧
        res.getLast? = some (nd.y, nd.x)) := by
  intro rest
  induction rest with
  | nil =>
    intro r0 res h
    injection h with h2
    exact Or.inl ⟨rfl, h2.symm⟩
  | cons v rest2 ih =>
    intro r0 res h
    rw [show ((r0 :: v :: rest2).zip (v :: rest2)) = (r0, v) :: ((v :: rest2).zip rest2)
      from rfl] at h
    rw [stitchPairs] at h
    cases hs : stitchStep g r0 v with
    | none => rw [hs] at h; cases h
    | some s =>
      rw [hs] at h
      cases hr : stitchPairs g ((v :: rest2).zip rest2) with
      | none => rw [hr] at h; dsimp only at h; cases h
      | some r =>
        rw [hr] at h
        dsimp only at h
        injection h with h2
        subst h2
        rcases stitchStep_last g hgeo r0 v s hs with ⟨hsne, nd, hnd, hlast⟩
        rcases ih v r hr with ⟨hre, hrnil⟩ | ⟨hrne, vl, nd2, hvl, hnd2, hrlast⟩
        · subst hre
          subst hrnil
          right
          refine ⟨by simpa using hsne, v, nd, rfl, hnd, ?_⟩
          simpa using hlast
        · right
          have hres : (s ++ r) ≠ [] := fun hc => hrne (List.append_eq_nil.mp hc).2
          have hgl : (v :: rest2).getLast? = some vl := by
            cases rest2 with
            | nil => cases hvl
            | cons w ws => rw [List.getLast?_cons_cons]; exact hvl
          refine ⟨hres, vl, nd2, hgl, hnd2, ?_⟩
          rw [List.getLast?_append_of_ne_nil _ hrne]
          exact hrlast

theorem stitch_endpoints (g : Graph) (hgeo : GeomOK g) (route : List Nat)
    (coords : List (ℚ × ℚ)) (o dnode : Nat) (ndo ndd : NodeData)
    (hst : stitch g route = some coords)
    (hhead : route.head? = some o)
    (hlast : route.getLast? = some dnode)
    (hndo : nodeXY g o = some ndo)
    (hndd : nodeXY g dnode = some ndd) :
    coords.head? = some (ndo.y, ndo.x) ∧ coords.getLast? = some (ndd.y, ndd.x) := by
  cases route with
  | nil => cases hhead
  | cons r0 rest =>
    have hr0 : r0 = o := by
      injection hhead
    subst hr0
    unfold stitch at hst
    dsimp only at hst
    rw [hndo] at hst
    dsimp only at hst
    rw [List.tail_cons] at hst
    cases hsp : stitchPairs g ((r0 :: rest).zip rest) with
    | none => rw [hsp] at hst; cases hst
    | some res =>
      rw [hsp] at hst
      rw [Option.map_some'] at hst
      injection hst with h2
      subst h2
      refine ⟨rfl, ?_⟩
      rcases stitchPairs_last g hgeo rest r0 res hsp
        with ⟨hre, hrnil⟩ | ⟨hrne, vl, nd, hvl, hnd, hrlast⟩
      · subst hre
        subst hrnil
        have hod : r0 = dnode := by
          simpa using hlast
        subst hod
        rw [hndo] at hndd
        injection hndd with h3
        subst h3
        rfl
      · have hvd : vl = dnode := by
          have : (r0 :: rest).getLast? = some vl := by
            cases rest with
            | nil => cases hvl
            | cons w ws => rw [List.getLast?_cons_cons]; exact hvl
          rw [hlast] at this
          injection this with h3
          exact h3.symm
        subst hvd
        rw [hndd] at hnd
        injection hnd with h3
        subst h3
        show ((ndo.y, ndo.x) :: res).getLast? = some (ndd.y, ndd.x)
        rw [show ((ndo.y, ndo.x) :: res) = [(ndo.y, ndo.x)] ++ res from rfl,
          List.getLast?_append_of_ne_nil _ hrne]
        exact hrlast

end StitchLemmas

/-- C3: for every successful navigate call, the stitched coordinate sequence
starts at the coordinate of the snapped origin node and ends at the
coordinate of the snapped destination node.  The loaded network satisfies
the curve invariant GeomOK: stored edge curves span their endpoint nodes. -/
theorem C3_route_endpoints (env : Env) (req : Req) (coords : List (ℚ × ℚ))
    (p1 p2 op dp : Point) (o d : Nat) (ndo ndd : NodeData)
    (hgeo : GeomOK env.graph)
    (hne : req.start_point ≠ req.end_point)
    (h1 : get_location_point env req.start_point = .ok op)
    (h2 : get_location_point env req.end_point = .ok dp)
    (h3 : nearest_nodes env.graph op.x op.y = some o)
    (h4 : nearest_nodes env.graph dp.x dp.y = some d)
    (hxo : nodeXY env.graph o = some ndo)
    (hxd : nodeXY env.graph d = some ndd)
    (hok : navigate env req = .ok coords p1 p2) :
    coords.head? = some (ndo.y, ndo.x) ∧ coords.getLast? = some (ndd.y, ndd.x) := by
  unfold navigate navigateT at hok
  rw [if_neg hne, h1, h2] at hok
  dsimp only at hok
  rw [h3, h4] at hok
  dsimp only at hok
  cases hsp : shortest_path env.graph o d with
  | error e => rw [hsp] at hok; cases hok
  | ok route =>
    rw [hsp] at hok
    dsimp only at hok
    cases hst : stitch env.graph route with
    | none => rw [hst] at hok; cases hok
    | some cs =>
      rw [hst] at hok
      dsimp only at hok
      injection hok with ha hb hc
      subst ha
      rcases shortest_path_sound env.graph o d route hsp with ⟨hh, hl, _⟩
      exact stitch_endpoints env.graph hgeo route cs o d ndo ndd hst hh hl hxo hxd

/-- The witness graph of envC8 carries no curve geometry, so the curve
invariant holds vacuously. -/
theorem geomOK_envC8 : GeomOK envC8.graph := by
  intro u v ed cs hed hcs
  exfalso
  unfold get_edge_data at hed
  cases hf : envC8.graph.edges.find? fun e => e.1 = u && e.2.1 = v with
  | none => rw [hf] at hed; cases hed
  | some e =>
    rw [hf] at hed
    injection hed with hed2
    have hed3 : e.2.2 = ed := hed2
    have hmem := List.mem_of_find?_eq_some hf
    have hgnone : e.2.2.geometry = none := by
      rcases List.mem_cons.mp hmem with rfl | hmem2
      · rfl
      · rcases List.mem_cons.mp hmem2 with rfl | hmem3
        · rfl
        · exact absurd hmem3 (List.not_mem_nil e)
    rw [hed3] at hgnone
    rw [hgnone] at hcs
    cases hcs

/-- Witness for C3: the concrete two-building route of envC8 starts at the
snapped origin node coordinate and ends at the destination node
coordinate. -/
theorem C3_route_endpoints_witness :
    [((0 : ℚ), (0 : ℚ)), (0, 10)].head? = some (0, 0) ∧
      [((0 : ℚ), (0 : ℚ)), (0, 10)].getLast? = some (0, 10) :=
  C3_route_endpoints envC8 ⟨some "A", some "B"⟩ [(0, 0), (0, 10)]
    ⟨2/3, 2/3⟩ ⟨31/3, 1/3⟩ ⟨2/3, 2/3⟩ ⟨31/3, 1/3⟩ 1 2 ⟨0, 0⟩ ⟨10, 0⟩
    geomOK_envC8 (by decide)
    (by with_unfolding_all rfl) (by with_unfolding_all rfl)
    (by with_unfolding_all decide) (by with_unfolding_all decide)
    (by decide) (by decide) (by with_unfolding_all decide)

/-- C6: when the snapped destination node is not reachable from the snapped
origin node along stored edges, navigate answers the no-path error (the
NetworkXNoPath exception surfaced as the 500 error response). -/
theorem C6_unreachable_no_path (env : Env) (req : Req) (op dp : Point) (o d : Nat)
    (hne : req.start_point ≠ req.end_point)
    (h1 : get_location_point env req.start_point = .ok op)
    (h2 : get_location_point env req.end_point = .ok dp)
    (h3 : nearest_nodes env.graph op.x op.y = some o)
    (h4 : nearest_nodes env.graph dp.x dp.y = some d)
    (hunreach : ¬ ∃ r : List Nat,
      r.head? = some o ∧ r.getLast? = some d ∧ chainB env.graph r = true) :
    navigate env req = .serverError .noPath := by
  unfold navigate navigateT
  rw [if_neg hne, h1, h2]
  dsimp only
  rw [h3, h4]
  dsimp only
  cases hsp : shortest_path env.graph o d with
  | error e =>
    have he := shortest_path_err env.graph o d e
      (nearest_nodes_any env.graph op.x op.y o h3)
      (nearest_nodes_any env.graph dp.x dp.y d h4) hsp
    rw [he]
  | ok route =>
    exact absurd ⟨route, shortest_path_sound env.graph o d route hsp⟩ hunreach

/-- Witness environment for C6: the two buildings of envC8 over a network
with the same two nodes but no edges at all. -/
def envC6 : Env :=
  { graph := { nodes := [(1, ⟨0, 0⟩), (2, ⟨10, 0⟩)], edges := [] },
    buildings_gdf := envC8.buildings_gdf,
    entrances_gdf := [],
    proj := id,
    dist := fun _ _ => 0 }

/-- Witness for C6: with no edges, node 2 is unreachable from node 1 and the
call answers the no-path error. -/
theorem C6_unreachable_no_path_witness :
    navigate envC6 ⟨some "A", some "B"⟩ = .serverError .noPath :=
  C6_unreachable_no_path envC6 ⟨some "A", some "B"⟩ ⟨2/3, 2/3⟩ ⟨31/3, 1/3⟩ 1 2
    (by decide) (by with_unfolding_all rfl) (by with_unfolding_all rfl)
    (by with_unfolding_all decide) (by with_unfolding_all decide)
    (by
      rintro ⟨r, hh, hl, hc⟩
      cases r with
      | nil => cases hh
      | cons a tail =>
        have ha : a = 1 := by injection hh
        subst ha
        cases tail with
        | nil =>
          exact absurd hl (by decide)
        | cons b t2 =>
          simp [chainB, hasEdgeB, envC6] at hc)

/-- The shortest path search at equal endpoints present in the graph answers
the single node path, as the library search does. -/
theorem shortest_path_self (g : Graph) (o : Nat)
    (ho : (g.nodes.any fun n => n.1 = o) = true) :
    shortest_path g o o = .ok [o] := by
  unfold shortest_path
  rw [if_pos (by rw [ho]; rfl)]
  show dijkstra g o (g.edges.length + 1 + 1) [] [(0, [o])] = .ok [o]
  rw [dijkstra]
  rw [show pickMin [((0 : ℚ), [o])] = some (((0 : ℚ), [o]), []) from rfl]
  dsimp only
  rw [if_pos rfl]
  rfl

/-- C7 amended: when the two resolved points of distinct input names snap to
the same network node, the path search answers the single node path and
navigate succeeds with the one-point route at that node; no error is
raised. -/
theorem C7_same_node_trivial_route (env : Env) (req : Req) (op dp : Point) (o : Nat)
    (nd : NodeData)
    (hne : req.start_point ≠ req.end_point)
    (h1 : get_location_point env req.start_point = .ok op)
    (h2 : get_location_point env req.end_point = .ok dp)
    (h3 : nearest_nodes env.graph op.x op.y = some o)
    (h4 : nearest_nodes env.graph dp.x dp.y = some o)
    (h5 : nodeXY env.graph o = some nd) :
    navigate env req = .ok [(nd.y, nd.x)] op dp := by
  unfold navigate navigateT
  rw [if_neg hne, h1, h2]
  dsimp only
  rw [h3, h4]
  dsimp only
  rw [shortest_path_self env.graph o (nearest_nodes_any env.graph op.x op.y o h3)]
  dsimp only
  have hstitch : stitch env.graph [o] = some [(nd.y, nd.x)] := by
    unfold stitch
    dsimp only
    rw [h5]
    dsimp only
    rfl
  rw [hstitch]

/-- Counterexample environment for C7: two distinct buildings over a one
node network, so both resolved points snap to the same node. -/
def envC7 : Env :=
  { graph := { nodes := [(1, ⟨0, 0⟩)], edges := [] },
    buildings_gdf := [⟨"A", triC1⟩, ⟨"B", triC9b⟩],
    entrances_gdf := [],
    proj := id,
    dist := fun _ _ => 0 }

/-- Counterexample for C7: both endpoints snap to node 1, yet the call does
not fail at all: it succeeds with status 200 and the one-point route. -/
theorem C7_same_node_counterexample :
    navigate envC7 ⟨some "A", some "B"⟩ = .ok [(0, 0)] ⟨2/3, 2/3⟩ ⟨32/3, 32/3⟩ ∧
      statusCode (navigate envC7 ⟨some "A", some "B"⟩) = 200 := by
  with_unfolding_all decide

/-- Witness for the amended C7 at the concrete one-node environment. -/
theorem C7_same_node_trivial_route_witness :
    navigate envC7 ⟨some "A", some "B"⟩ = .ok [(0, 0)] ⟨2/3, 2/3⟩ ⟨32/3, 32/3⟩ :=
  C7_same_node_trivial_route envC7 ⟨some "A", some "B"⟩ ⟨2/3, 2/3⟩ ⟨32/3, 32/3⟩ 1 ⟨0, 0⟩
    (by decide) (by with_unfolding_all rfl) (by with_unfolding_all rfl)
    (by with_unfolding_all decide) (by with_unfolding_all decide) (by decide)

/-- Counterexample graph for C2: the single directed edge from node 1 to
node 2 stores its curve backwards, running from the coordinate of node 2
through the midpoint to the coordinate of node 1. -/
def gC2 : Graph :=
  { nodes := [(1, ⟨0, 0⟩), (2, ⟨1, 0⟩)],
    edges := [(1, 2, ⟨1, some [(1, 0), (1/2, 1/2), (0, 0)]⟩)] }

/-- Counterexample for C2: the stitcher appends the stored curve exactly as
stored even though it runs against the direction of travel.  The first
stitched sequence is what the code produces (the backwards curve appended
verbatim after the seed); the second is what the claim mandates (the curve
reversed into travel direction before being appended); they differ. -/
theorem C2_no_reversal_counterexample :
    get_edge_data gC2 1 2 = some ⟨1, some [(1, 0), (1/2, 1/2), (0, 0)]⟩ ∧
      nodeXY gC2 1 = some ⟨0, 0⟩ ∧ nodeXY gC2 2 = some ⟨1, 0⟩ ∧
      stitch gC2 [1, 2] = some [(0, 0), (0, 1), (1/2, 1/2), (0, 0)] ∧
      stitch gC2 [1, 2] ≠ some [(0, 0), (0, 0), (1/2, 1/2), (0, 1)] := by
  with_unfolding_all decide

/-- C2 amended: for a route edge carrying a curve, the stitcher appends the
stored coordinates verbatim, each (longitude, latitude) pair swapped to
(latitude, longitude), with no orientation check and no reversal; hence the
appended run goes from the first stored coordinate to the last stored
coordinate, and is oriented with the travel direction exactly when the
stored curve is. -/
theorem C2_stitcher_appends_stored_orientation (g : Graph) (u v : Nat) (ed : EdgeData)
    (cs : List (ℚ × ℚ)) (p q : ℚ × ℚ)
    (h1 : get_edge_data g u v = some ed)
    (h2 : ed.geometry = some cs)
    (hh : cs.head? = some p) (hl : cs.getLast? = some q) :
    stitchStep g u v = some (cs.map fun c => (c.2, c.1)) ∧
      (cs.map fun c => (c.2, c.1)).head? = some (p.2, p.1) ∧
      (cs.map fun c => (c.2, c.1)).getLast? = some (q.2, q.1) := by
  refine ⟨?_, ?_, ?_⟩
  · unfold stitchStep
    rw [h1]
    dsimp only
    rw [h2]
  · rw [List.head?_map, hh]
    rfl
  · rw [List.getLast?_map, hl]
    rfl

/-- Witness for the amended C2 at the concrete backwards-stored curve of
gC2: the appended run starts at the stored first coordinate and ends at the
stored last coordinate. -/
theorem C2_stitcher_appends_stored_orientation_witness :
    stitchStep gC2 1 2 = some [((0 : ℚ), (1 : ℚ)), (1/2, 1/2), (0, 0)] ∧
      [((0 : ℚ), (1 : ℚ)), (1/2, 1/2), (0, 0)].head? = some (0, 1) ∧
      [((0 : ℚ), (1 : ℚ)), (1/2, 1/2), (0, 0)].getLast? = some (0, 0) :=
  C2_stitcher_appends_stored_orientation gC2 1 2 ⟨1, some [(1, 0), (1/2, 1/2), (0, 0)]⟩
    [(1, 0), (1/2, 1/2), (0, 0)] (1, 0) (0, 0)
    (by with_unfolding_all decide) (by with_unfolding_all decide)
    (by with_unfolding_all decide) (by with_unfolding_all decide)

end UstpNav
